import Mathlib

/-!
Verification of the bank-system money-movement protocol.

Shallow embedding of the `bank_system` FastAPI application (the current
tree `src/bank_system` with HTTP basic auth, the one exercised by the
test suite).  Balances and amounts are modelled as rationals (`ℚ`),
matching the fixed-point `Decimal` column; database tables are lists of
records; each HTTP handler becomes a pure function from a database state
to a result together with the post-call state.  A handler body that runs
inside `async with conn.transaction()` is modelled by computing the
partial (post-statement) state and rolling back to the pre-call state on
any raised `HTTPException`, exactly as asyncpg does.
-/

namespace BankSystem

/-- A row of the `accounts` table: `id`, `user_id` (owner), `balance`. -/
structure Account where
  id : Nat
  user_id : Nat
  balance : ℚ
deriving Repr, DecidableEq

/-- A row of the `transactions` table.  `from_account_id` and
`to_account_id` are nullable; `created_at` is the insertion timestamp. -/
structure Txn where
  from_account_id : Option Nat
  to_account_id : Option Nat
  amount : ℚ
  created_at : Nat
deriving Repr, DecidableEq

/-- The whole mutable state: the three database tables, the in-memory
credential map `_users` of `core/auth.py` (passwords are external, so we
keep only the usernames), and fresh-id / clock counters for the
serial columns. -/
structure DB where
  users : List (Nat × String)
  accounts : List Account
  txns : List Txn
  memUsers : List String
  nextUserId : Nat
  nextAccountId : Nat
  nextCreatedAt : Nat
deriving Repr, DecidableEq

/-- The empty state right after migrations plus `clear_users()`. -/
def DB.init : DB := ⟨[], [], [], [], 1, 1, 1⟩

/-- Errors surfaced by a handler: a pydantic request-validation error
(HTTP 422), an `HTTPException` with status code and detail, or a failed
`assert` in the handler body. -/
inductive ApiError where
  | validation (detail : String)
  | http (status : Nat) (detail : String)
  | assertionFailed
deriving Repr, DecidableEq

/-- Failure kind InvalidAmount: pydantic rejects amount <= 0 (the Gt(0)
annotation on the request models). -/
def invalidAmount : ApiError := .validation "Input should be greater than 0"

/-- Failure kind SameAccount: the CreateTransferRequest validator. -/
def sameAccount : ApiError := .validation "Cannot transfer to the same account."

/-- The subquery SELECT id FROM users WHERE username = $1 (usernames are unique). -/
def DB.userIdOf (db : DB) (username : String) : Option Nat :=
  (db.users.find? (fun u => u.2 == username)).map (fun u => u.1)

/-- The lookup SELECT * FROM accounts WHERE id = $1. -/
def DB.findAccount (db : DB) (accountId : Nat) : Option Account :=
  db.accounts.find? (fun a => a.id == accountId)

/-- The ownership check CTE shared by the deposit/withdrawal/transfer
statements: EXISTS (SELECT 1 FROM accounts a JOIN users u ON
a.user_id = u.id WHERE a.id = $accountId AND u.username = $username). -/
def DB.ownedBy (db : DB) (accountId : Nat) (username : String) : Bool :=
  db.accounts.any (fun a => a.id == accountId &&
    db.users.any (fun u => u.1 == a.user_id && u.2 == username))

/-- The ownership condition of get_account, via subquery:
a.user_id = (SELECT id FROM users WHERE username = $2). -/
def DB.ownsVia (db : DB) (a : Account) (username : String) : Bool :=
  match db.userIdOf username with
  | some uid => a.user_id == uid
  | none => false

/-- The statement UPDATE accounts SET balance = balance + $delta WHERE id = $accountId. -/
def DB.updateBalance (db : DB) (accountId : Nat) (delta : ℚ) : DB :=
  { db with accounts := db.accounts.map (fun a =>
      if a.id == accountId then { a with balance := a.balance + delta } else a) }

/-- The statement INSERT INTO transactions (from_account_id, to_account_id, amount). -/
def DB.insertTxn (db : DB) (f t : Option Nat) (amount : ℚ) : DB :=
  { db with
    txns := db.txns ++ [⟨f, t, amount, db.nextCreatedAt⟩]
    nextCreatedAt := db.nextCreatedAt + 1 }

/-- Handler create_deposit in api/transactions.py, POST
/transactions/deposit.  One CTE statement: ownership check, balance
update, conditional insert; a missing record means 404. -/
def createDeposit (db : DB) (accountId : Nat) (amount : ℚ) (username : String) :
    Except ApiError Unit × DB :=
  if amount ≤ 0 then (.error invalidAmount, db)
  else if db.ownedBy accountId username then
    (.ok (), (db.updateBalance accountId amount).insertTxn none (some accountId) amount)
  else (.error (.http 404 "Account not found"), db)

/-- Handler create_withdrawal, POST /transactions/withdrawal.  The CTE
statement tentatively debits the account and inserts the log row
whenever the ownership check passes; the handler then raises (rolling
the transaction back) if the returned balance is negative. -/
def createWithdrawal (db : DB) (accountId : Nat) (amount : ℚ) (username : String) :
    Except ApiError Unit × DB :=
  if amount ≤ 0 then (.error invalidAmount, db)
  else
    let record : Option ℚ :=
      if db.ownedBy accountId username then
        (db.findAccount accountId).map (fun a => a.balance - amount)
      else none
    let dbStmt :=
      if record.isSome then
        (db.updateBalance accountId (-amount)).insertTxn (some accountId) none amount
      else db
    match record with
    | none => (.error (.http 404 "Account not found"), db)
    | some newBal =>
      if newBal < 0 then (.error (.http 400 "Insufficient funds in this account"), db)
      else (.ok (), dbStmt)

/-- Handler create_transfer, POST /transactions/transfer.  All CTEs read
the snapshot taken at the start of the statement: the withdrawal CTE
debits the source when owned by the caller, the deposit CTE credits the
destination whenever it exists (no ownership condition), the insert
fires when both did; the handler inspects the FULL JOIN row and raises
(rolling back) on a missing endpoint or a negative source balance. -/
def createTransfer (db : DB) (fromId toId : Nat) (amount : ℚ) (username : String) :
    Except ApiError Unit × DB :=
  if amount ≤ 0 then (.error invalidAmount, db)
  else if fromId == toId then (.error sameAccount, db)
  else
    let withdrawalRow : Option (Nat × ℚ) :=
      if db.ownedBy fromId username then
        (db.findAccount fromId).map (fun a => (a.id, a.balance - amount))
      else none
    let depositRow : Option Nat := (db.findAccount toId).map (fun a => a.id)
    let db1 := if withdrawalRow.isSome then db.updateBalance fromId (-amount) else db
    let db2 := if depositRow.isSome then db1.updateBalance toId amount else db1
    let dbStmt :=
      if withdrawalRow.isSome && depositRow.isSome then
        db2.insertTxn (some fromId) (some toId) amount
      else db2
    match withdrawalRow, depositRow with
    | none, none => (.error (.http 404 "From account and to account not found"), db)
    | none, some _ => (.error (.http 404 "From account not found"), db)
    | some _, none => (.error (.http 404 "To account not found"), db)
    | some (_, newBal), some _ =>
      if newBal < 0 then (.error (.http 400 "Insufficient funds in from account"), db)
      else (.ok (), dbStmt)

/-- Handler get_account in api/accounts.py, GET /accounts/(account_id):
SELECT id, balance FROM accounts WHERE id = $1 AND user_id = (SELECT id
FROM users WHERE username = $2); a missing row means 404. -/
def getAccount (db : DB) (accountId : Nat) (username : String) :
    Except ApiError (Nat × ℚ) :=
  match db.accounts.find? (fun a => a.id == accountId && db.ownsVia a username) with
  | some a => .ok (a.id, a.balance)
  | none => .error (.http 404 "Account not found")

/-- The condition WHERE (from_account_id = $1 OR to_account_id = $1) of
get_transactions_by_account. -/
def txnTouches (accountId : Nat) (t : Txn) : Bool :=
  t.from_account_id == some accountId || t.to_account_id == some accountId

/-- Insertion step of ORDER BY created_at DESC. -/
def insertDesc (t : Txn) : List Txn → List Txn
  | [] => [t]
  | s :: rest =>
    if s.created_at ≤ t.created_at then t :: s :: rest else s :: insertDesc t rest

/-- The clause ORDER BY created_at DESC as an insertion sort. -/
def sortByCreatedAtDesc : List Txn → List Txn
  | [] => []
  | t :: rest => insertDesc t (sortByCreatedAtDesc rest)

/-- Handler get_transactions_by_account, GET
/transactions/account/(account_id): select the rows with the account at
either endpoint, guarded by the caller-ownership EXISTS; when the
result is empty, a second ownership query decides between 404 and an
empty list. -/
def getTransactionsByAccount (db : DB) (accountId : Nat) (username : String) :
    Except ApiError (List Txn) :=
  let records :=
    if db.ownedBy accountId username then
      sortByCreatedAtDesc (db.txns.filter (txnTouches accountId))
    else []
  if records.isEmpty then
    if db.ownedBy accountId username then .ok []
    else .error (.http 404 "Account not found")
  else .ok records

/-- Handler register in api/auth.py, POST /auth/register: insert into
users, swallowing UniqueViolationError with a warning; then
register_user adds the username to the in-memory map, raising
ValueError (HTTP 400) when it is already there.  The insert is a
single auto-committed statement, so it is not rolled back by the later
failure. -/
def register (db : DB) (username : String) : Except ApiError Unit × DB :=
  let dbIns :=
    if db.users.any (fun u => u.2 == username) then db
    else { db with
           users := db.users ++ [(db.nextUserId, username)]
           nextUserId := db.nextUserId + 1 }
  if db.memUsers.contains username then
    (.error (.http 400 "Username already exists"), dbIns)
  else (.ok (), { dbIns with memUsers := dbIns.memUsers ++ [username] })

/-- Dependency verify_credentials in core/auth.py: reject a username
absent from the in-memory map, then reject a wrong password (bcrypt
check, abstracted as a boolean). -/
def verifyCredentials (db : DB) (username : String) (passwordOk : Bool) :
    Except ApiError String :=
  if db.memUsers.contains username then
    if passwordOk then .ok username
    else .error (.http 401 "Incorrect username or password")
  else .error (.http 401 "Incorrect username or password")

/-- Handler create_account in api/accounts.py, POST /accounts/:
INSERT INTO accounts (user_id, balance) SELECT id, 0 FROM users WHERE
username = $1 RETURNING ...; then assert row is not None. -/
def createAccount (db : DB) (username : String) :
    Except ApiError (Nat × ℚ) × DB :=
  match db.userIdOf username with
  | some uid =>
    (.ok (db.nextAccountId, 0),
     { db with
       accounts := db.accounts ++ [⟨db.nextAccountId, uid, 0⟩]
       nextAccountId := db.nextAccountId + 1 })
  | none => (.error .assertionFailed, db)

/-- One state-mutating API call (the read-only endpoints do not change
the state). -/
inductive Op where
  | register (username : String)
  | createAccount (username : String)
  | deposit (username : String) (accountId : Nat) (amount : ℚ)
  | withdrawal (username : String) (accountId : Nat) (amount : ℚ)
  | transfer (username : String) (fromId toId : Nat) (amount : ℚ)

/-- The state reached after one API call. -/
def step (db : DB) : Op → DB
  | .register u => (register db u).2
  | .createAccount u => (createAccount db u).2
  | .deposit u a amt => (createDeposit db a amt u).2
  | .withdrawal u a amt => (createWithdrawal db a amt u).2
  | .transfer u f t amt => (createTransfer db f t amt u).2

/-- The state reached after a sequence of API calls. -/
def run (db : DB) (ops : List Op) : DB := ops.foldl step db

/-- Well-formedness of a database state: the uniqueness constraints of
the schema, freshness of the serial counters, monotone insertion
timestamps, agreement of the in-memory credential map with the users
table, and non-negative balances. -/
structure DB.WF (db : DB) : Prop where
  accIds : (db.accounts.map Account.id).Nodup
  userNames : (db.users.map Prod.snd).Nodup
  accBound : ∀ a ∈ db.accounts, a.id < db.nextAccountId
  txnSorted : db.txns.Pairwise (fun t s => t.created_at < s.created_at)
  txnBound : ∀ t ∈ db.txns, t.created_at < db.nextCreatedAt
  memIff : ∀ u, u ∈ db.memUsers ↔ u ∈ db.users.map Prod.snd
  nonneg : ∀ a ∈ db.accounts, 0 ≤ a.balance

/-- Mapping an id-preserving function over a row list commutes with the
id lookup. -/
theorem find?_map_of_id_pres (g : Account → Account)
    (hg : ∀ a, (g a).id = a.id) (k : Nat) (l : List Account) :
    (l.map g).find? (fun a => a.id == k) = (l.find? (fun a => a.id == k)).map g := by
  induction l with
  | nil => rfl
  | cons a l ih =>
    simp only [List.map_cons, List.find?_cons, hg]
    cases hb : (a.id == k) <;> simp [hb, ih]

/-- Balance updates preserve the list of account ids. -/
theorem updateBalance_map_id (db : DB) (i : Nat) (δ : ℚ) :
    (db.updateBalance i δ).accounts.map Account.id = db.accounts.map Account.id := by
  simp only [DB.updateBalance, List.map_map]
  refine List.map_congr_left (fun a _ => ?_)
  by_cases h : a.id = i <;> simp [h]

/-- The account returned by the row lookup after a balance update. -/
theorem findAccount_updateBalance (db : DB) (i k : Nat) (δ : ℚ) :
    (db.updateBalance i δ).findAccount k =
      (db.findAccount k).map (fun a =>
        if a.id == i then { a with balance := a.balance + δ } else a) := by
  have hg : ∀ a : Account,
      (if a.id == i then { a with balance := a.balance + δ } else a).id = a.id := by
    intro a
    by_cases h : a.id = i <;> simp [h]
  exact find?_map_of_id_pres _ hg k db.accounts

/-- In a duplicate-free row list the id lookup finds any member with
the looked-up id. -/
theorem find?_eq_of_nodup_ids (l : List Account)
    (hnd : (l.map Account.id).Nodup) (a : Account) (ha : a ∈ l) (hk : a.id = k) :
    l.find? (fun x => x.id == k) = some a := by
  induction l with
  | nil => cases ha
  | cons b l ih =>
    simp only [List.map_cons, List.nodup_cons] at hnd
    rcases List.mem_cons.mp ha with h | h
    · subst h
      simp [List.find?_cons, hk]
    · have hbk : b.id ≠ k := by
        intro hbk
        exact hnd.1 (hbk ▸ hk ▸ List.mem_map_of_mem Account.id h)
      have hb : (b.id == k) = false := by simp [hbk]
      simp [List.find?_cons, hb, ih hnd.2 h]

/-- A passing ownership check implies the account row exists. -/
theorem findAccount_isSome_of_ownedBy (db : DB) (accId : Nat) (u : String)
    (h : db.ownedBy accId u = true) : (db.findAccount accId).isSome := by
  simp only [DB.ownedBy, List.any_eq_true, Bool.and_eq_true] at h
  obtain ⟨a, ha, hid, -⟩ := h
  simp only [DB.findAccount, List.find?_isSome]
  exact ⟨a, ha, hid⟩

/-- Branch equation: deposit of a non-positive amount. -/
theorem createDeposit_invalid (db : DB) (accId : Nat) (amt : ℚ) (u : String)
    (h : amt ≤ 0) : createDeposit db accId amt u = (.error invalidAmount, db) := by
  simp [createDeposit, h]

/-- Branch equation: deposit to an absent or foreign account. -/
theorem createDeposit_notOwned (db : DB) (accId : Nat) (amt : ℚ) (u : String)
    (h1 : ¬amt ≤ 0) (h2 : db.ownedBy accId u = false) :
    createDeposit db accId amt u = (.error (.http 404 "Account not found"), db) := by
  simp [createDeposit, h1, h2]

/-- Branch equation: successful deposit. -/
theorem createDeposit_ok (db : DB) (accId : Nat) (amt : ℚ) (u : String)
    (h1 : ¬amt ≤ 0) (h2 : db.ownedBy accId u = true) :
    createDeposit db accId amt u =
      (.ok (), (db.updateBalance accId amt).insertTxn none (some accId) amt) := by
  simp [createDeposit, h1, h2]

/-- Branch equation: withdrawal of a non-positive amount. -/
theorem createWithdrawal_invalid (db : DB) (accId : Nat) (amt : ℚ) (u : String)
    (h : amt ≤ 0) : createWithdrawal db accId amt u = (.error invalidAmount, db) := by
  simp [createWithdrawal, h]

/-- Branch equation: withdrawal from an absent or foreign account. -/
theorem createWithdrawal_notOwned (db : DB) (accId : Nat) (amt : ℚ) (u : String)
    (h1 : ¬amt ≤ 0) (h2 : db.ownedBy accId u = false) :
    createWithdrawal db accId amt u = (.error (.http 404 "Account not found"), db) := by
  simp [createWithdrawal, h1, h2]

/-- Branch equation: withdrawal that would overdraw the account. -/
theorem createWithdrawal_insufficient (db : DB) (accId : Nat) (amt : ℚ) (u : String)
    (a : Account) (h1 : ¬amt ≤ 0) (h2 : db.ownedBy accId u = true)
    (h3 : db.findAccount accId = some a) (h4 : a.balance - amt < 0) :
    createWithdrawal db accId amt u =
      (.error (.http 400 "Insufficient funds in this account"), db) := by
  simp [createWithdrawal, h1, h2, h3, h4]

/-- Branch equation: successful withdrawal. -/
theorem createWithdrawal_ok (db : DB) (accId : Nat) (amt : ℚ) (u : String)
    (a : Account) (h1 : ¬amt ≤ 0) (h2 : db.ownedBy accId u = true)
    (h3 : db.findAccount accId = some a) (h4 : ¬a.balance - amt < 0) :
    createWithdrawal db accId amt u =
      (.ok (), (db.updateBalance accId (-amt)).insertTxn (some accId) none amt) := by
  simp [createWithdrawal, h1, h2, h3, h4]

/-- Branch equation: transfer of a non-positive amount. -/
theorem createTransfer_invalid (db : DB) (fromId toId : Nat) (amt : ℚ) (u : String)
    (h : amt ≤ 0) : createTransfer db fromId toId amt u = (.error invalidAmount, db) := by
  simp [createTransfer, h]

/-- Branch equation: transfer to the source account itself. -/
theorem createTransfer_same (db : DB) (fromId toId : Nat) (amt : ℚ) (u : String)
    (h1 : ¬amt ≤ 0) (h2 : fromId = toId) :
    createTransfer db fromId toId amt u = (.error sameAccount, db) := by
  simp [createTransfer, h1, h2]

/-- Branch equation: transfer with failing source check and absent
destination. -/
theorem createTransfer_bothMissing (db : DB) (fromId toId : Nat) (amt : ℚ) (u : String)
    (h1 : ¬amt ≤ 0) (h2 : fromId ≠ toId) (h3 : db.ownedBy fromId u = false)
    (h4 : db.findAccount toId = none) :
    createTransfer db fromId toId amt u =
      (.error (.http 404 "From account and to account not found"), db) := by
  simp [createTransfer, h1, h2, h3, h4]

/-- Branch equation: transfer with failing source check and existing
destination. -/
theorem createTransfer_fromMissing (db : DB) (fromId toId : Nat) (amt : ℚ) (u : String)
    (d : Account) (h1 : ¬amt ≤ 0) (h2 : fromId ≠ toId) (h3 : db.ownedBy fromId u = false)
    (h4 : db.findAccount toId = some d) :
    createTransfer db fromId toId amt u =
      (.error (.http 404 "From account not found"), db) := by
  simp [createTransfer, h1, h2, h3, h4]

/-- Branch equation: transfer with passing source check and absent
destination. -/
theorem createTransfer_toMissing (db : DB) (fromId toId : Nat) (amt : ℚ) (u : String)
    (a : Account) (h1 : ¬amt ≤ 0) (h2 : fromId ≠ toId) (h3 : db.ownedBy fromId u = true)
    (h3f : db.findAccount fromId = some a) (h4 : db.findAccount toId = none) :
    createTransfer db fromId toId amt u =
      (.error (.http 404 "To account not found"), db) := by
  simp [createTransfer, h1, h2, h3, h3f, h4]

/-- Branch equation: transfer that would overdraw the source. -/
theorem createTransfer_insufficient (db : DB) (fromId toId : Nat) (amt : ℚ) (u : String)
    (a d : Account) (h1 : ¬amt ≤ 0) (h2 : fromId ≠ toId) (h3 : db.ownedBy fromId u = true)
    (h3f : db.findAccount fromId = some a) (h4 : db.findAccount toId = some d)
    (h5 : a.balance - amt < 0) :
    createTransfer db fromId toId amt u =
      (.error (.http 400 "Insufficient funds in from account"), db) := by
  simp [createTransfer, h1, h2, h3, h3f, h4, h5]

/-- Branch equation: successful transfer. -/
theorem createTransfer_ok (db : DB) (fromId toId : Nat) (amt : ℚ) (u : String)
    (a d : Account) (h1 : ¬amt ≤ 0) (h2 : fromId ≠ toId) (h3 : db.ownedBy fromId u = true)
    (h3f : db.findAccount fromId = some a) (h4 : db.findAccount toId = some d)
    (h5 : ¬a.balance - amt < 0) :
    createTransfer db fromId toId amt u =
      (.ok (), ((db.updateBalance fromId (-amt)).updateBalance toId amt).insertTxn
        (some fromId) (some toId) amt) := by
  simp [createTransfer, h1, h2, h3, h3f, h4, h5]

/-- Membership form of List.contains on usernames. -/
theorem contains_iff_mem (l : List String) (u : String) :
    l.contains u = true ↔ u ∈ l := by
  simp

/-- Membership form of the duplicate-username probe of register. -/
theorem any_snd_iff (l : List (Nat × String)) (u : String) :
    l.any (fun x => x.2 == u) = true ↔ u ∈ l.map Prod.snd := by
  simp

/-- A balance update preserves well-formedness provided the touched
rows stay non-negative. -/
theorem wf_updateBalance (db : DB) (h : db.WF) (i : Nat) (δ : ℚ)
    (hδ : ∀ a ∈ db.accounts, a.id = i → 0 ≤ a.balance + δ) :
    (db.updateBalance i δ).WF := by
  refine ⟨?_, h.userNames, ?_, h.txnSorted, h.txnBound, h.memIff, ?_⟩
  · rw [updateBalance_map_id]
    exact h.accIds
  · intro a ha
    simp only [DB.updateBalance, List.mem_map] at ha
    obtain ⟨b, hb, rfl⟩ := ha
    by_cases hid : b.id = i <;>
      simpa [DB.updateBalance, hid] using h.accBound b hb
  · intro a ha
    simp only [DB.updateBalance, List.mem_map] at ha
    obtain ⟨b, hb, rfl⟩ := ha
    by_cases hid : b.id = i
    · simpa [hid] using hδ b hb hid
    · simpa [hid] using h.nonneg b hb

/-- Appending a log row preserves well-formedness. -/
theorem wf_insertTxn (db : DB) (h : db.WF) (f t : Option Nat) (amt : ℚ) :
    (db.insertTxn f t amt).WF := by
  refine ⟨h.accIds, h.userNames, h.accBound, ?_, ?_, h.memIff, h.nonneg⟩
  · simp only [DB.insertTxn]
    rw [List.pairwise_append]
    refine ⟨h.txnSorted, List.pairwise_singleton _ _, ?_⟩
    intro t1 ht1 t2 ht2
    simp only [List.mem_singleton] at ht2
    subst ht2
    exact h.txnBound t1 ht1
  · intro s hs
    simp only [DB.insertTxn, List.mem_append, List.mem_singleton] at hs
    rcases hs with hs | rfl
    · exact Nat.lt_succ_of_lt (h.txnBound s hs)
    · exact Nat.lt_succ_self _

/-- Registration preserves well-formedness. -/
theorem wf_register (db : DB) (h : db.WF) (u : String) : ((register db u).2).WF := by
  unfold register
  by_cases hm : u ∈ db.memUsers
  · have hc : db.memUsers.contains u = true := (contains_iff_mem _ _).mpr hm
    have hd : db.users.any (fun x => x.2 == u) = true :=
      (any_snd_iff _ _).mpr ((h.memIff u).mp hm)
    simpa only [hc, hd, if_true] using h
  · have hc : db.memUsers.contains u = false := by
      rw [Bool.eq_false_iff]
      intro hcc
      exact hm ((contains_iff_mem _ _).mp hcc)
    have hd : db.users.any (fun x => x.2 == u) = false := by
      rw [Bool.eq_false_iff]
      intro hdd
      exact hm ((h.memIff u).mpr ((any_snd_iff _ _).mp hdd))
    have hnotin : u ∉ db.users.map Prod.snd := fun hmem => hm ((h.memIff u).mpr hmem)
    simp only [hc, hd, Bool.false_eq_true, if_false]
    refine ⟨h.accIds, ?_, h.accBound, h.txnSorted, h.txnBound, ?_, h.nonneg⟩
    · simp [List.nodup_append, h.userNames, hnotin]
    · intro v
      simp only [List.map_append, List.mem_append, List.map_cons, List.map_nil,
        List.mem_singleton, h.memIff v]

/-- Account creation preserves well-formedness. -/
theorem wf_createAccount (db : DB) (h : db.WF) (u : String) :
    ((createAccount db u).2).WF := by
  unfold createAccount
  cases hu : db.userIdOf u with
  | none => exact h
  | some uid =>
    have hfresh : db.nextAccountId ∉ db.accounts.map Account.id := by
      intro hmem
      simp only [List.mem_map] at hmem
      obtain ⟨a, ha, hid⟩ := hmem
      exact absurd (h.accBound a ha) (by rw [hid]; exact lt_irrefl _)
    refine ⟨?_, h.userNames, ?_, h.txnSorted, h.txnBound, h.memIff, ?_⟩
    · simp [List.nodup_append, h.accIds, hfresh]
    · intro a ha
      simp only [List.mem_append, List.mem_singleton] at ha
      rcases ha with ha | rfl
      · exact Nat.lt_succ_of_lt (h.accBound a ha)
      · exact Nat.lt_succ_self _
    · intro a ha
      simp only [List.mem_append, List.mem_singleton] at ha
      rcases ha with ha | rfl
      · exact h.nonneg a ha
      · exact le_refl _

/-- Deposits preserve well-formedness. -/
theorem wf_createDeposit (db : DB) (h : db.WF) (accId : Nat) (amt : ℚ) (u : String) :
    ((createDeposit db accId amt u).2).WF := by
  by_cases h1 : amt ≤ 0
  · rw [createDeposit_invalid db accId amt u h1]
    exact h
  cases hb : db.ownedBy accId u with
  | false =>
    rw [createDeposit_notOwned db accId amt u h1 hb]
    exact h
  | true =>
    rw [createDeposit_ok db accId amt u h1 hb]
    refine wf_insertTxn _ (wf_updateBalance db h accId amt ?_) _ _ _
    intro a ha _
    exact add_nonneg (h.nonneg a ha) (le_of_lt (lt_of_not_le h1))

/-- Withdrawals preserve well-formedness: on the committed path the
checked balance is the balance of the unique debited row. -/
theorem wf_createWithdrawal (db : DB) (h : db.WF) (accId : Nat) (amt : ℚ) (u : String) :
    ((createWithdrawal db accId amt u).2).WF := by
  by_cases h1 : amt ≤ 0
  · rw [createWithdrawal_invalid db accId amt u h1]
    exact h
  cases hb : db.ownedBy accId u with
  | false =>
    rw [createWithdrawal_notOwned db accId amt u h1 hb]
    exact h
  | true =>
    obtain ⟨a, ha⟩ :=
      Option.isSome_iff_exists.mp (findAccount_isSome_of_ownedBy db accId u hb)
    by_cases h4 : a.balance - amt < 0
    · rw [createWithdrawal_insufficient db accId amt u a h1 hb ha h4]
      exact h
    · rw [createWithdrawal_ok db accId amt u a h1 hb ha h4]
      refine wf_insertTxn _ (wf_updateBalance db h accId (-amt) ?_) _ _ _
      intro b hbmem hid
      have hfb : db.findAccount accId = some b :=
        find?_eq_of_nodup_ids db.accounts h.accIds b hbmem hid
      obtain rfl : a = b := by
        rw [ha] at hfb
        exact Option.some.inj hfb
      linarith [not_lt.mp h4]

/-- Transfers preserve well-formedness. -/
theorem wf_createTransfer (db : DB) (h : db.WF) (fromId toId : Nat) (amt : ℚ)
    (u : String) : ((createTransfer db fromId toId amt u).2).WF := by
  by_cases h1 : amt ≤ 0
  · rw [createTransfer_invalid db fromId toId amt u h1]
    exact h
  by_cases h2 : fromId = toId
  · rw [createTransfer_same db fromId toId amt u h1 h2]
    exact h
  cases hb : db.ownedBy fromId u with
  | false =>
    cases hd : db.findAccount toId with
    | none =>
      rw [createTransfer_bothMissing db fromId toId amt u h1 h2 hb hd]
      exact h
    | some d =>
      rw [createTransfer_fromMissing db fromId toId amt u d h1 h2 hb hd]
      exact h
  | true =>
    obtain ⟨a, ha⟩ :=
      Option.isSome_iff_exists.mp (findAccount_isSome_of_ownedBy db fromId u hb)
    cases hd : db.findAccount toId with
    | none =>
      rw [createTransfer_toMissing db fromId toId amt u a h1 h2 hb ha hd]
      exact h
    | some d =>
      by_cases h5 : a.balance - amt < 0
      · rw [createTransfer_insufficient db fromId toId amt u a d h1 h2 hb ha hd h5]
        exact h
      · rw [createTransfer_ok db fromId toId amt u a d h1 h2 hb ha hd h5]
        have hwf1 : (db.updateBalance fromId (-amt)).WF := by
          refine wf_updateBalance db h fromId (-amt) ?_
          intro b hbmem hid
          have hfb : db.findAccount fromId = some b :=
            find?_eq_of_nodup_ids db.accounts h.accIds b hbmem hid
          obtain rfl : a = b := by
            rw [ha] at hfb
            exact Option.some.inj hfb
          linarith [not_lt.mp h5]
        refine wf_insertTxn _ (wf_updateBalance _ hwf1 toId amt ?_) _ _ _
        intro b hbmem _
        have hnn := hwf1.nonneg b hbmem
        have hamt : (0:ℚ) < amt := lt_of_not_le h1
        linarith

/-- Every API call preserves well-formedness. -/
theorem wf_step (db : DB) (h : db.WF) (op : Op) : (step db op).WF := by
  cases op with
  | register u => exact wf_register db h u
  | createAccount u => exact wf_createAccount db h u
  | deposit u a amt => exact wf_createDeposit db h a amt u
  | withdrawal u a amt => exact wf_createWithdrawal db h a amt u
  | transfer u f t amt => exact wf_createTransfer db h f t amt u

/-- The initial state is well-formed. -/
theorem wf_init : DB.init.WF := by
  refine ⟨?_, ?_, ?_, ?_, ?_, ?_, ?_⟩ <;> simp [DB.init]

/-- Every state reachable from the initial state is well-formed. -/
theorem wf_run (ops : List Op) : (run DB.init ops).WF := by
  suffices h : ∀ db : DB, db.WF → (run db ops).WF from h DB.init wf_init
  induction ops with
  | nil => exact fun db h => h
  | cons op ops ih => exact fun db h => ih _ (wf_step db h op)

/-- The row found by an id lookup carries the looked-up id. -/
theorem findAccount_id (db : DB) (k : Nat) (a : Account)
    (h : db.findAccount k = some a) : a.id = k := by
  have := List.find?_some h
  simpa using this

/-- Inserting a log row does not change the accounts table. -/
theorem findAccount_insertTxn (db : DB) (f t : Option Nat) (amt : ℚ) (k : Nat) :
    (db.insertTxn f t amt).findAccount k = db.findAccount k := rfl

/-- The id lookup after a balance update of the same id. -/
theorem findAccount_updateBalance_self (db : DB) (i : Nat) (δ : ℚ) (a : Account)
    (h : db.findAccount i = some a) :
    (db.updateBalance i δ).findAccount i = some { a with balance := a.balance + δ } := by
  rw [findAccount_updateBalance, h]
  simp [findAccount_id db i a h]

/-- The id lookup after a balance update of a different id. -/
theorem findAccount_updateBalance_other (db : DB) (i k : Nat) (δ : ℚ) (hik : k ≠ i) :
    (db.updateBalance i δ).findAccount k = db.findAccount k := by
  rw [findAccount_updateBalance]
  cases h : db.findAccount k with
  | none => rfl
  | some a =>
    have : a.id ≠ i := by
      rw [findAccount_id db k a h]
      exact hik
    simp [this]

/-- Insertion into a descending list is a permutation of consing. -/
theorem insertDesc_perm (t : Txn) (l : List Txn) : (insertDesc t l).Perm (t :: l) := by
  induction l with
  | nil => exact List.Perm.refl _
  | cons s rest ih =>
    simp only [insertDesc]
    by_cases hle : s.created_at ≤ t.created_at
    · simp [hle]
    · simp only [hle, if_false]
      exact (List.Perm.cons s ih).trans (List.Perm.swap t s rest)

/-- The insertion sort permutes its input. -/
theorem sortDesc_perm (l : List Txn) : (sortByCreatedAtDesc l).Perm l := by
  induction l with
  | nil => exact List.Perm.refl _
  | cons t rest ih =>
    exact (insertDesc_perm t (sortByCreatedAtDesc rest)).trans (List.Perm.cons t ih)

/-- Insertion preserves descending order of timestamps. -/
theorem insertDesc_sorted (t : Txn) (l : List Txn)
    (h : l.Pairwise (fun a b => b.created_at ≤ a.created_at)) :
    (insertDesc t l).Pairwise (fun a b => b.created_at ≤ a.created_at) := by
  induction l with
  | nil => simp [insertDesc]
  | cons s rest ih =>
    rw [List.pairwise_cons] at h
    simp only [insertDesc]
    by_cases hle : s.created_at ≤ t.created_at
    · simp only [hle, if_true]
      rw [List.pairwise_cons]
      refine ⟨?_, List.pairwise_cons.mpr h⟩
      intro x hx
      rcases List.mem_cons.mp hx with rfl | hx
      · exact hle
      · exact le_trans (h.1 x hx) hle
    · simp only [hle, if_false]
      rw [List.pairwise_cons]
      refine ⟨?_, ih h.2⟩
      intro x hx
      have hx' := (insertDesc_perm t rest).mem_iff.mp hx
      rcases List.mem_cons.mp hx' with rfl | hx'
      · exact le_of_lt (lt_of_not_le hle)
      · exact h.1 x hx'

/-- The insertion sort produces a descending list of timestamps. -/
theorem sortDesc_sorted (l : List Txn) :
    (sortByCreatedAtDesc l).Pairwise (fun a b => b.created_at ≤ a.created_at) := by
  induction l with
  | nil => simp [sortByCreatedAtDesc]
  | cons t rest ih => exact insertDesc_sorted t _ ih

/-- On a caller-visible account the listing returns the sorted filter
of the log. -/
theorem getTransactions_of_owned (db : DB) (accId : Nat) (u : String)
    (h : db.ownedBy accId u = true) :
    getTransactionsByAccount db accId u =
      .ok (sortByCreatedAtDesc (db.txns.filter (txnTouches accId))) := by
  unfold getTransactionsByAccount
  simp only [h, if_true]
  by_cases he : (sortByCreatedAtDesc (db.txns.filter (txnTouches accId))).isEmpty
  · rw [List.isEmpty_iff] at he
    simp [he]
  · simp [he]

/-- Discriminator: a rejected handler outcome. -/
def isError : Except ApiError Unit → Bool
  | .error _ => true
  | .ok _ => false

/-- Discriminator: a handler outcome rejected with HTTP 404 (NotFound). -/
def isNotFound : Except ApiError Unit → Bool
  | .error (.http 404 _) => true
  | _ => false

/-- A small concrete state: user alice (in both the users table and the
credential map) with account 1 holding 300 and account 2 holding 0. -/
def sampleDB : DB :=
  ⟨[(1, "alice")], [⟨1, 1, 300⟩, ⟨2, 1, 0⟩], [], ["alice"], 2, 3, 1⟩

/-- A concrete state with two users: alice owns account 1 (balance 300),
bob owns account 2 (balance 0). -/
def sampleDB2 : DB :=
  ⟨[(1, "alice"), (2, "bob")], [⟨1, 1, 300⟩, ⟨2, 2, 0⟩],
   [⟨none, some 1, 300, 1⟩], ["alice", "bob"], 3, 3, 2⟩

/-- C1: starting from the initial state, every sequence of API calls
(registration, account creation, deposits, withdrawals, transfers)
leaves every committed account balance non-negative; moreover a
withdrawal or transfer whose amount exceeds the source account balance
is rejected and returns the state — hence every balance — unchanged. -/
theorem nonneg_invariant_and_overdraft_rejected :
    (∀ ops : List Op, ∀ a ∈ (run DB.init ops).accounts, 0 ≤ a.balance) ∧
    (∀ (db : DB) (accId : Nat) (amt : ℚ) (u : String) (a : Account),
      db.findAccount accId = some a → a.balance < amt →
      isError (createWithdrawal db accId amt u).1 = true ∧
      (createWithdrawal db accId amt u).2 = db) ∧
    (∀ (db : DB) (fromId toId : Nat) (amt : ℚ) (u : String) (a : Account),
      db.findAccount fromId = some a → a.balance < amt →
      isError (createTransfer db fromId toId amt u).1 = true ∧
      (createTransfer db fromId toId amt u).2 = db) := by
  refine ⟨fun ops a ha => (wf_run ops).nonneg a ha, ?_, ?_⟩
  · intro db accId amt u a ha hlt
    by_cases h1 : amt ≤ 0
    · rw [createWithdrawal_invalid db accId amt u h1]
      exact ⟨rfl, rfl⟩
    cases hb : db.ownedBy accId u with
    | false =>
      rw [createWithdrawal_notOwned db accId amt u h1 hb]
      exact ⟨rfl, rfl⟩
    | true =>
      rw [createWithdrawal_insufficient db accId amt u a h1 hb ha (by linarith)]
      exact ⟨rfl, rfl⟩
  · intro db fromId toId amt u a ha hlt
    by_cases h1 : amt ≤ 0
    · rw [createTransfer_invalid db fromId toId amt u h1]
      exact ⟨rfl, rfl⟩
    by_cases h2 : fromId = toId
    · rw [createTransfer_same db fromId toId amt u h1 h2]
      exact ⟨rfl, rfl⟩
    cases hb : db.ownedBy fromId u with
    | false =>
      cases hd : db.findAccount toId with
      | none =>
        rw [createTransfer_bothMissing db fromId toId amt u h1 h2 hb hd]
        exact ⟨rfl, rfl⟩
      | some d =>
        rw [createTransfer_fromMissing db fromId toId amt u d h1 h2 hb hd]
        exact ⟨rfl, rfl⟩
    | true =>
      cases hd : db.findAccount toId with
      | none =>
        rw [createTransfer_toMissing db fromId toId amt u a h1 h2 hb ha hd]
        exact ⟨rfl, rfl⟩
      | some d =>
        rw [createTransfer_insufficient db fromId toId amt u a d h1 h2 hb ha hd
          (by linarith)]
        exact ⟨rfl, rfl⟩

/-- Witness for C1 at concrete inputs: overdrawing withdrawals and
transfers on the sample state are rejected without a state change. -/
theorem nonneg_invariant_witness :
    (isError (createWithdrawal sampleDB 1 400 "alice").1 = true ∧
      (createWithdrawal sampleDB 1 400 "alice").2 = sampleDB) ∧
    (isError (createTransfer sampleDB 1 2 400 "alice").1 = true ∧
      (createTransfer sampleDB 1 2 400 "alice").2 = sampleDB) :=
  ⟨nonneg_invariant_and_overdraft_rejected.2.1 sampleDB 1 400 "alice" ⟨1, 1, 300⟩
      (by decide) (by norm_num),
   nonneg_invariant_and_overdraft_rejected.2.2 sampleDB 1 2 400 "alice" ⟨1, 1, 300⟩
      (by decide) (by norm_num)⟩

/-- C2: a rejected deposit, withdrawal, or transfer returns the state
exactly as it was before the call — balances and the transaction log
included; the tentative writes of the CTE statement are rolled back. -/
theorem rejected_ops_leave_state_unchanged :
    (∀ (db : DB) (accId : Nat) (amt : ℚ) (u : String),
      isError (createDeposit db accId amt u).1 = true →
      (createDeposit db accId amt u).2 = db) ∧
    (∀ (db : DB) (accId : Nat) (amt : ℚ) (u : String),
      isError (createWithdrawal db accId amt u).1 = true →
      (createWithdrawal db accId amt u).2 = db) ∧
    (∀ (db : DB) (fromId toId : Nat) (amt : ℚ) (u : String),
      isError (createTransfer db fromId toId amt u).1 = true →
      (createTransfer db fromId toId amt u).2 = db) := by
  refine ⟨?_, ?_, ?_⟩
  · intro db accId amt u herr
    by_cases h1 : amt ≤ 0
    · rw [createDeposit_invalid db accId amt u h1]
    cases hb : db.ownedBy accId u with
    | false => rw [createDeposit_notOwned db accId amt u h1 hb]
    | true =>
      rw [createDeposit_ok db accId amt u h1 hb] at herr
      exact absurd herr (by simp [isError])
  · intro db accId amt u herr
    by_cases h1 : amt ≤ 0
    · rw [createWithdrawal_invalid db accId amt u h1]
    cases hb : db.ownedBy accId u with
    | false => rw [createWithdrawal_notOwned db accId amt u h1 hb]
    | true =>
      obtain ⟨a, ha⟩ :=
        Option.isSome_iff_exists.mp (findAccount_isSome_of_ownedBy db accId u hb)
      by_cases h4 : a.balance - amt < 0
      · rw [createWithdrawal_insufficient db accId amt u a h1 hb ha h4]
      · rw [createWithdrawal_ok db accId amt u a h1 hb ha h4] at herr
        exact absurd herr (by simp [isError])
  · intro db fromId toId amt u herr
    by_cases h1 : amt ≤ 0
    · rw [createTransfer_invalid db fromId toId amt u h1]
    by_cases h2 : fromId = toId
    · rw [createTransfer_same db fromId toId amt u h1 h2]
    cases hb : db.ownedBy fromId u with
    | false =>
      cases hd : db.findAccount toId with
      | none => rw [createTransfer_bothMissing db fromId toId amt u h1 h2 hb hd]
      | some d => rw [createTransfer_fromMissing db fromId toId amt u d h1 h2 hb hd]
    | true =>
      obtain ⟨a, ha⟩ :=
        Option.isSome_iff_exists.mp (findAccount_isSome_of_ownedBy db fromId u hb)
      cases hd : db.findAccount toId with
      | none => rw [createTransfer_toMissing db fromId toId amt u a h1 h2 hb ha hd]
      | some d =>
        by_cases h5 : a.balance - amt < 0
        · rw [createTransfer_insufficient db fromId toId amt u a d h1 h2 hb ha hd h5]
        · rw [createTransfer_ok db fromId toId amt u a d h1 h2 hb ha hd h5] at herr
          exact absurd herr (by simp [isError])

/-- Witness for C2 at concrete inputs: three rejected operations on the
sample state leave it unchanged. -/
theorem rejected_ops_witness :
    (createDeposit sampleDB 9 50 "alice").2 = sampleDB ∧
    (createWithdrawal sampleDB 1 400 "alice").2 = sampleDB ∧
    (createTransfer sampleDB 1 1 50 "alice").2 = sampleDB := by
  refine ⟨rejected_ops_leave_state_unchanged.1 sampleDB 9 50 "alice" ?_,
    rejected_ops_leave_state_unchanged.2.1 sampleDB 1 400 "alice" ?_,
    rejected_ops_leave_state_unchanged.2.2 sampleDB 1 1 50 "alice" ?_⟩
  · decide
  · rw [createWithdrawal_insufficient sampleDB 1 400 "alice" ⟨1, 1, 300⟩ (by norm_num)
      (by decide) (by decide) (by norm_num)]
    rfl
  · decide

/-- C5: a deposit, withdrawal, or transfer with a non-positive amount
is rejected by request validation (the InvalidAmount kind) before the
handler body runs, so the state is untouched. -/
theorem invalid_amount_rejected (db : DB) (amt : ℚ) (h : amt ≤ 0) :
    (∀ (accId : Nat) (u : String),
      createDeposit db accId amt u = (.error invalidAmount, db)) ∧
    (∀ (accId : Nat) (u : String),
      createWithdrawal db accId amt u = (.error invalidAmount, db)) ∧
    (∀ (fromId toId : Nat) (u : String),
      createTransfer db fromId toId amt u = (.error invalidAmount, db)) :=
  ⟨fun accId u => createDeposit_invalid db accId amt u h,
   fun accId u => createWithdrawal_invalid db accId amt u h,
   fun fromId toId u => createTransfer_invalid db fromId toId amt u h⟩

/-- Witness for C5 at a concrete input: zero-amount operations on the
sample state are rejected with InvalidAmount and change nothing. -/
theorem invalid_amount_witness :
    createDeposit sampleDB 1 0 "alice" = (.error invalidAmount, sampleDB) ∧
    createWithdrawal sampleDB 1 0 "alice" = (.error invalidAmount, sampleDB) ∧
    createTransfer sampleDB 1 2 0 "alice" = (.error invalidAmount, sampleDB) :=
  ⟨(invalid_amount_rejected sampleDB 0 (by norm_num)).1 1 "alice",
   (invalid_amount_rejected sampleDB 0 (by norm_num)).2.1 1 "alice",
   (invalid_amount_rejected sampleDB 0 (by norm_num)).2.2 1 2 "alice"⟩

/-- C3: a transfer with positive amount, distinct existing accounts,
caller-owned source, and sufficient source balance succeeds; the source
balance drops by exactly the amount, the destination balance rises by
exactly the amount, and exactly one transaction carrying both account
ids and the request amount is appended to the log. -/
theorem transfer_success_postcondition (db : DB) (fromId toId : Nat) (amt : ℚ)
    (u : String) (src dst : Account)
    (h1 : 0 < amt) (h2 : fromId ≠ toId)
    (h3 : db.ownedBy fromId u = true)
    (hsrc : db.findAccount fromId = some src)
    (hdst : db.findAccount toId = some dst)
    (h5 : amt ≤ src.balance) :
    (createTransfer db fromId toId amt u).1 = .ok () ∧
    (createTransfer db fromId toId amt u).2.findAccount fromId =
      some { src with balance := src.balance - amt } ∧
    (createTransfer db fromId toId amt u).2.findAccount toId =
      some { dst with balance := dst.balance + amt } ∧
    (createTransfer db fromId toId amt u).2.txns =
      db.txns ++ [⟨some fromId, some toId, amt, db.nextCreatedAt⟩] := by
  have h1' : ¬amt ≤ 0 := not_le.mpr h1
  have h5' : ¬src.balance - amt < 0 := by linarith
  rw [createTransfer_ok db fromId toId amt u src dst h1' h2 h3 hsrc hdst h5']
  refine ⟨rfl, ?_, ?_, rfl⟩
  · rw [findAccount_insertTxn,
      findAccount_updateBalance_other (db.updateBalance fromId (-amt)) toId fromId amt h2,
      findAccount_updateBalance_self db fromId (-amt) src hsrc]
    simp [sub_eq_add_neg]
  · have hmid : (db.updateBalance fromId (-amt)).findAccount toId = some dst := by
      rw [findAccount_updateBalance_other db fromId toId (-amt) (Ne.symm h2)]
      exact hdst
    rw [findAccount_insertTxn, findAccount_updateBalance_self _ toId amt dst hmid]

/-- Witness for C3 at a concrete input: the scenario transfer 200 from
account 1 (balance 300) to account 2 (balance 0). -/
theorem transfer_success_witness :
    (createTransfer sampleDB 1 2 200 "alice").1 = .ok () ∧
    (createTransfer sampleDB 1 2 200 "alice").2.findAccount 1 =
      some ⟨1, 1, (300:ℚ) - 200⟩ ∧
    (createTransfer sampleDB 1 2 200 "alice").2.findAccount 2 =
      some ⟨2, 1, (0:ℚ) + 200⟩ ∧
    (createTransfer sampleDB 1 2 200 "alice").2.txns =
      sampleDB.txns ++ [⟨some 1, some 2, 200, sampleDB.nextCreatedAt⟩] :=
  transfer_success_postcondition sampleDB 1 2 200 "alice" ⟨1, 1, 300⟩ ⟨2, 1, 0⟩
    (by norm_num) (by decide) (by decide) (by decide) (by decide) (by norm_num)

/-- C4: a positive-amount withdrawal on an existing caller-owned
account fails with InsufficientFunds and persists nothing when the
amount exceeds the balance; otherwise — including the boundary case of
withdrawing the whole balance — it debits the account by exactly the
amount and appends exactly one transaction with the account as source
and a null destination. -/
theorem withdrawal_semantics (db : DB) (accId : Nat) (amt : ℚ) (u : String)
    (a : Account) (h1 : 0 < amt) (h2 : db.ownedBy accId u = true)
    (ha : db.findAccount accId = some a) :
    (a.balance < amt →
      createWithdrawal db accId amt u =
        (.error (.http 400 "Insufficient funds in this account"), db)) ∧
    (amt ≤ a.balance →
      (createWithdrawal db accId amt u).1 = .ok () ∧
      (createWithdrawal db accId amt u).2.findAccount accId =
        some { a with balance := a.balance - amt } ∧
      (createWithdrawal db accId amt u).2.txns =
        db.txns ++ [⟨some accId, none, amt, db.nextCreatedAt⟩]) := by
  have h1' : ¬amt ≤ 0 := not_le.mpr h1
  constructor
  · intro hlt
    exact createWithdrawal_insufficient db accId amt u a h1' h2 ha (by linarith)
  · intro hle
    have h4 : ¬a.balance - amt < 0 := by linarith
    rw [createWithdrawal_ok db accId amt u a h1' h2 ha h4]
    refine ⟨rfl, ?_, rfl⟩
    rw [findAccount_insertTxn, findAccount_updateBalance_self db accId (-amt) a ha]
    simp [sub_eq_add_neg]

/-- Witness for C4 at concrete inputs: withdrawing 400 from balance 300
is rejected with nothing persisted; withdrawing the whole balance 300
succeeds and leaves 0. -/
theorem withdrawal_semantics_witness :
    (createWithdrawal sampleDB 1 400 "alice" =
      (.error (.http 400 "Insufficient funds in this account"), sampleDB)) ∧
    ((createWithdrawal sampleDB 1 300 "alice").1 = .ok () ∧
      (createWithdrawal sampleDB 1 300 "alice").2.findAccount 1 =
        some ⟨1, 1, (300:ℚ) - 300⟩ ∧
      (createWithdrawal sampleDB 1 300 "alice").2.txns =
        sampleDB.txns ++ [⟨some 1, none, 300, sampleDB.nextCreatedAt⟩]) :=
  ⟨(withdrawal_semantics sampleDB 1 400 "alice" ⟨1, 1, 300⟩ (by norm_num) (by decide)
      (by decide)).1 (by norm_num),
   (withdrawal_semantics sampleDB 1 300 "alice" ⟨1, 1, 300⟩ (by norm_num) (by decide)
      (by decide)).2 (by norm_num)⟩

/-- C6: get_account fails with NotFound exactly when the account does
not exist or exists but is not owned by the caller, and the not-owned
failure is literally the same value (same status, same detail) as the
nonexistent-id failure. -/
theorem get_account_ownership_opacity (db : DB) (u : String)
    (hnd : (db.accounts.map Account.id).Nodup) :
    (∀ accId, getAccount db accId u = .error (.http 404 "Account not found") ↔
      (db.findAccount accId = none ∨
        ∃ a, db.findAccount accId = some a ∧ db.ownsVia a u = false)) ∧
    (∀ accId1 accId2, db.findAccount accId1 = none →
      (∃ a, db.findAccount accId2 = some a ∧ db.ownsVia a u = false) →
      getAccount db accId1 u = getAccount db accId2 u) := by
  have hmain : ∀ accId,
      getAccount db accId u = .error (.http 404 "Account not found") ↔
      (db.findAccount accId = none ∨
        ∃ a, db.findAccount accId = some a ∧ db.ownsVia a u = false) := by
    intro accId
    have hstep : getAccount db accId u = .error (.http 404 "Account not found") ↔
        db.accounts.find? (fun a => a.id == accId && db.ownsVia a u) = none := by
      unfold getAccount
      cases hf : db.accounts.find? (fun a => a.id == accId && db.ownsVia a u) <;> simp
    rw [hstep, List.find?_eq_none]
    constructor
    · intro hall
      cases hf : db.findAccount accId with
      | none => exact Or.inl rfl
      | some a =>
        refine Or.inr ⟨a, rfl, ?_⟩
        have hmem : a ∈ db.accounts := List.mem_of_find?_eq_some hf
        have hid : a.id = accId := findAccount_id db accId a hf
        have hna := hall a hmem
        simpa [hid] using hna
    · rintro (hnone | ⟨a, hsome, howns⟩) x hx
      · have hids : ∀ y ∈ db.accounts, ¬(y.id == accId) = true := by
          rw [← List.find?_eq_none]
          exact hnone
        simp only [Bool.and_eq_true, not_and]
        intro hxid
        exact absurd hxid (hids x hx)
      · simp only [Bool.and_eq_true, beq_iff_eq, not_and]
        intro hxid hxowns
        have hfx : db.findAccount accId = some x :=
          find?_eq_of_nodup_ids db.accounts hnd x hx hxid
        rw [hsome] at hfx
        obtain rfl := Option.some.inj hfx
        rw [howns] at hxowns
        cases hxowns
  refine ⟨hmain, ?_⟩
  intro accId1 accId2 h1 h2
  have e1 := (hmain accId1).mpr (Or.inl h1)
  have e2 := (hmain accId2).mpr (Or.inr h2)
  rw [e1, e2]

/-- Witness for C6 at a concrete input: on the two-user state, looking
up a nonexistent id and looking up an account owned by the other user
yield the same result. -/
theorem get_account_opacity_witness :
    (getAccount sampleDB2 9 "alice" = .error (.http 404 "Account not found") ↔
      (sampleDB2.findAccount 9 = none ∨
        ∃ a, sampleDB2.findAccount 9 = some a ∧ sampleDB2.ownsVia a "alice" = false)) ∧
    getAccount sampleDB2 9 "alice" = getAccount sampleDB2 2 "alice" :=
  ⟨(get_account_ownership_opacity sampleDB2 "alice" (by decide)).1 9,
   (get_account_ownership_opacity sampleDB2 "alice" (by decide)).2 9 2 (by decide)
     ⟨⟨2, 2, 0⟩, by decide, by decide⟩⟩

/-- C7: only the transfer source is ownership-checked — a transfer to
an existing account of any owner succeeds when the source checks pass;
a nonexistent destination yields NotFound whatever the source state;
a missing or foreign source yields NotFound. -/
theorem transfer_auth_asymmetry :
    (∀ (db : DB) (fromId toId : Nat) (amt : ℚ) (u : String) (src dst : Account),
      0 < amt → fromId ≠ toId → db.ownedBy fromId u = true →
      db.findAccount fromId = some src → db.findAccount toId = some dst →
      amt ≤ src.balance →
      (createTransfer db fromId toId amt u).1 = .ok ()) ∧
    (∀ (db : DB) (fromId toId : Nat) (amt : ℚ) (u : String),
      0 < amt → fromId ≠ toId → db.findAccount toId = none →
      isNotFound (createTransfer db fromId toId amt u).1 = true ∧
      (createTransfer db fromId toId amt u).2 = db) ∧
    (∀ (db : DB) (fromId toId : Nat) (amt : ℚ) (u : String),
      0 < amt → fromId ≠ toId → db.ownedBy fromId u = false →
      isNotFound (createTransfer db fromId toId amt u).1 = true ∧
      (createTransfer db fromId toId amt u).2 = db) := by
  refine ⟨?_, ?_, ?_⟩
  · intro db fromId toId amt u src dst h1 h2 h3 hsrc hdst h5
    have h1' : ¬amt ≤ 0 := not_le.mpr h1
    have h5' : ¬src.balance - amt < 0 := by linarith
    rw [createTransfer_ok db fromId toId amt u src dst h1' h2 h3 hsrc hdst h5']
  · intro db fromId toId amt u h1 h2 hdnone
    have h1' : ¬amt ≤ 0 := not_le.mpr h1
    cases hb : db.ownedBy fromId u with
    | false =>
      rw [createTransfer_bothMissing db fromId toId amt u h1' h2 hb hdnone]
      exact ⟨rfl, rfl⟩
    | true =>
      obtain ⟨a, ha⟩ :=
        Option.isSome_iff_exists.mp (findAccount_isSome_of_ownedBy db fromId u hb)
      rw [createTransfer_toMissing db fromId toId amt u a h1' h2 hb ha hdnone]
      exact ⟨rfl, rfl⟩
  · intro db fromId toId amt u h1 h2 hb
    have h1' : ¬amt ≤ 0 := not_le.mpr h1
    cases hd : db.findAccount toId with
    | none =>
      rw [createTransfer_bothMissing db fromId toId amt u h1' h2 hb hd]
      exact ⟨rfl, rfl⟩
    | some d =>
      rw [createTransfer_fromMissing db fromId toId amt u d h1' h2 hb hd]
      exact ⟨rfl, rfl⟩

/-- Witness for C7 at concrete inputs: alice transfers to an account
owned by bob and succeeds; a transfer to a nonexistent account and a
transfer from an account alice does not own both yield NotFound with no
state change. -/
theorem transfer_auth_witness :
    (createTransfer sampleDB2 1 2 200 "alice").1 = .ok () ∧
    (isNotFound (createTransfer sampleDB2 1 9 200 "alice").1 = true ∧
      (createTransfer sampleDB2 1 9 200 "alice").2 = sampleDB2) ∧
    (isNotFound (createTransfer sampleDB2 2 1 50 "alice").1 = true ∧
      (createTransfer sampleDB2 2 1 50 "alice").2 = sampleDB2) :=
  ⟨transfer_auth_asymmetry.1 sampleDB2 1 2 200 "alice" ⟨1, 1, 300⟩ ⟨2, 2, 0⟩
      (by norm_num) (by decide) (by decide) (by decide) (by decide) (by norm_num),
   transfer_auth_asymmetry.2.1 sampleDB2 1 9 200 "alice"
      (by norm_num) (by decide) (by decide),
   transfer_auth_asymmetry.2.2 sampleDB2 2 1 50 "alice"
      (by norm_num) (by decide) (by decide)⟩

/-- C8: listing transactions of a caller-visible account returns
exactly the log rows having the account at either endpoint (a
permutation of the filtered log), ordered newest first; on an invisible
account it fails with NotFound; on a visible account with no history it
returns the empty list, not an error. -/
theorem list_for_account_spec (db : DB) (accId : Nat) (u : String) :
    (db.ownedBy accId u = true →
      getTransactionsByAccount db accId u =
        .ok (sortByCreatedAtDesc (db.txns.filter (txnTouches accId))) ∧
      (sortByCreatedAtDesc (db.txns.filter (txnTouches accId))).Perm
        (db.txns.filter (txnTouches accId)) ∧
      (sortByCreatedAtDesc (db.txns.filter (txnTouches accId))).Pairwise
        (fun a b => b.created_at ≤ a.created_at)) ∧
    (db.ownedBy accId u = false →
      getTransactionsByAccount db accId u = .error (.http 404 "Account not found")) ∧
    (db.ownedBy accId u = true → db.txns.filter (txnTouches accId) = [] →
      getTransactionsByAccount db accId u = .ok []) := by
  refine ⟨?_, ?_, ?_⟩
  · intro h
    exact ⟨getTransactions_of_owned db accId u h, sortDesc_perm _, sortDesc_sorted _⟩
  · intro h
    unfold getTransactionsByAccount
    simp [h]
  · intro h hfil
    rw [getTransactions_of_owned db accId u h, hfil]
    rfl

/-- Witness for C8 at concrete inputs: the account of alice with one
deposit row, an account not owned by alice, and the empty-history
account of bob. -/
theorem list_for_account_witness :
    (getTransactionsByAccount sampleDB2 1 "alice" =
        .ok (sortByCreatedAtDesc (sampleDB2.txns.filter (txnTouches 1))) ∧
      (sortByCreatedAtDesc (sampleDB2.txns.filter (txnTouches 1))).Perm
        (sampleDB2.txns.filter (txnTouches 1)) ∧
      (sortByCreatedAtDesc (sampleDB2.txns.filter (txnTouches 1))).Pairwise
        (fun a b => b.created_at ≤ a.created_at)) ∧
    getTransactionsByAccount sampleDB2 2 "alice" =
      .error (.http 404 "Account not found") ∧
    getTransactionsByAccount sampleDB2 2 "bob" = .ok [] :=
  ⟨(list_for_account_spec sampleDB2 1 "alice").1 (by decide),
   (list_for_account_spec sampleDB2 2 "alice").2.1 (by decide),
   (list_for_account_spec sampleDB2 2 "bob").2.2 (by decide) (by decide)⟩

/-- C9: when the in-memory credential map and the users table hold the
same usernames (as they do in every state reachable in one process
run), registering an existing username fails with AlreadyExists and
changes nothing, and registering a fresh username succeeds and creates
a user record with that username. -/
theorem registration_uniqueness (db : DB) (u : String)
    (hmemsub : ∀ v ∈ db.memUsers, v ∈ db.users.map Prod.snd)
    (husersub : ∀ v ∈ db.users.map Prod.snd, v ∈ db.memUsers) :
    (u ∈ db.users.map Prod.snd →
      register db u = (.error (.http 400 "Username already exists"), db)) ∧
    (u ∉ db.users.map Prod.snd →
      (register db u).1 = .ok () ∧
      (register db u).2.users = db.users ++ [(db.nextUserId, u)] ∧
      (register db u).2.memUsers = db.memUsers ++ [u]) := by
  constructor
  · intro hin
    have hmem : u ∈ db.memUsers := husersub u hin
    have hd : db.users.any (fun x => x.2 == u) = true := (any_snd_iff _ _).mpr hin
    unfold register
    simp [hmem, hd]
  · intro hnin
    have hnmem : u ∉ db.memUsers := fun hmm => hnin (hmemsub u hmm)
    have hd : db.users.any (fun x => x.2 == u) = false := by
      rw [Bool.eq_false_iff]
      intro hdd
      exact hnin ((any_snd_iff _ _).mp hdd)
    unfold register
    simp [hnmem, hd]

/-- Witness for C9 at concrete inputs: re-registering alice fails with
AlreadyExists and leaves the state unchanged; registering carol
succeeds and appends a user record. -/
theorem registration_uniqueness_witness :
    register sampleDB "alice" = (.error (.http 400 "Username already exists"), sampleDB) ∧
    ((register sampleDB "carol").1 = .ok () ∧
      (register sampleDB "carol").2.users =
        sampleDB.users ++ [(sampleDB.nextUserId, "carol")] ∧
      (register sampleDB "carol").2.memUsers = sampleDB.memUsers ++ ["carol"]) :=
  ⟨(registration_uniqueness sampleDB "alice" (by decide) (by decide)).1 (by decide),
   (registration_uniqueness sampleDB "carol" (by decide) (by decide)).2 (by decide)⟩

/-- C10: for any state reachable from the initial state and any caller
accepted by verify_credentials, create_account returns the inserted row
— the assert that the INSERT..SELECT produced a row cannot fire,
because a username enters the credential map only after its users-table
row exists. -/
theorem create_account_assert_ok (ops : List Op) (u : String) (pw : Bool)
    (hauth : verifyCredentials (run DB.init ops) u pw = .ok u) :
    (createAccount (run DB.init ops) u).1 =
      .ok ((run DB.init ops).nextAccountId, 0) := by
  have hmem : u ∈ (run DB.init ops).memUsers := by
    by_contra hn
    have hc : (run DB.init ops).memUsers.contains u = false := by
      rw [Bool.eq_false_iff]
      intro hcc
      exact hn ((contains_iff_mem _ _).mp hcc)
    unfold verifyCredentials at hauth
    rw [hc] at hauth
    simp at hauth
  have husers : u ∈ (run DB.init ops).users.map Prod.snd :=
    ((wf_run ops).memIff u).mp hmem
  obtain ⟨x, hx, hxu⟩ := List.mem_map.mp husers
  have hfind : ((run DB.init ops).users.find? (fun p => p.2 == u)).isSome := by
    rw [List.find?_isSome]
    exact ⟨x, hx, by simp [hxu]⟩
  obtain ⟨p, hp⟩ := Option.isSome_iff_exists.mp hfind
  have huid : (run DB.init ops).userIdOf u = some p.1 := by
    unfold DB.userIdOf
    rw [hp]
    rfl
  unfold createAccount
  rw [huid]

/-- Witness for C10 at a concrete input: after registering alice, the
authenticated alice can create an account and the assert holds. -/
theorem create_account_assert_witness :
    (createAccount (run DB.init [Op.register "alice"]) "alice").1 =
      .ok ((run DB.init [Op.register "alice"]).nextAccountId, 0) :=
  create_account_assert_ok [Op.register "alice"] "alice" true (by rfl)

end BankSystem
